import Mathlib

/-!
Verification of the core decomposition engine of the
EECS553-Background-Subtraction repository (notebook `AccAlt.ipynb`).

The numerical core consists of three Python functions:
  * `soft_threshold(x, threshold)` and `hard_threshold(x, threshold)`
    (elementwise transforms),
  * `trim(U, Sig, V, mu_U, mu_V)` (incoherence trimming), and
  * `AccAltProj(D, r, params)` (the accelerated alternating projection loop).

Embedding conventions:
  * Real matrices are embedded as `Matrix (Fin m) (Fin n) ℚ`.  The engine
    itself performs only field operations; every square root the code takes
    (inside `np.sqrt`, `scipy.linalg.qr`, `scipy.linalg.svd`,
    `scipy.sparse.linalg.svds`) is confined to the external linear-algebra
    library, which the spec (section 6) treats as a collaborator.  Those
    library calls are therefore parameters of the embedding (an `AAPOracle`
    record of total functions), and concrete theorems instantiate them with
    exact rational implementations that agree with the library on the inputs
    actually passed.
  * `norm(X, 'fro')` only ever occurs in the ratio
    `norm(D - L - S, 'fro') / norm(D, 'fro')`, which is compared against the
    tolerance `eps` and stored in the trace.  Since both norms are
    non-negative square roots, `sqrt a / sqrt b < eps` holds iff
    `0 ≤ eps ∧ a / b < eps ^ 2` (for `b > 0`), so the residual is represented
    by the exact rational `a / b` (`relResSq`) and compared by `fltLt` against
    `eps ^ 2`.  When `norm(D) = 0` the float division produces `nan`
    (numerator is exactly `0` there), and every comparison with `nan` is
    false; this is modelled by the `FQ.nan` constructor.
  * The trace buffer `out = np.empty(niter)` is a fixed-size array; writing
    past its end raises `IndexError`.  Writes are modelled by the
    bounds-checked `traceWrite`, and the whole call returns
    `Except String _`, with `Except.error "IndexError"` for the raised
    exception.  The uninitialised contents of `np.empty` are modelled as
    `FQ.nan` placeholders (no theorem depends on them beyond trace length).
  * `print` has no effect on the returned value and is not modelled.
-/

/-- A float value appearing in the convergence bookkeeping: either an exact
(squared) rational value or `nan` (produced by `0/0` when `norm(D) = 0`). -/
inductive FQ where
  | val (q : ℚ)
  | nan
deriving DecidableEq, Repr

/-- Models the float comparison `x < eps` where `x` carries the SQUARE of the
compared quantity (see file header): `sqrt q < eps ↔ 0 ≤ eps ∧ q < eps ^ 2`,
and every comparison against `nan` is false. -/
def fltLt : FQ → ℚ → Bool
  | FQ.nan, _ => false
  | FQ.val q, e => decide (0 ≤ e) && decide (q < e ^ 2)

/-- Exact rational square root used to instantiate the `np.sqrt` parameter in
concrete runs: exact whenever numerator and denominator are perfect squares
(the only inputs our concrete runs produce). -/
def ratSqrt (q : ℚ) : ℚ :=
  (Nat.sqrt q.num.natAbs : ℚ) / (Nat.sqrt q.den : ℚ)

/-- `m × n` real matrix of the notebook, embedded over `ℚ`. -/
abbrev MatQ (m n : ℕ) : Type := Matrix (Fin m) (Fin n) ℚ

instance matQDecidableEq (m n : ℕ) : DecidableEq (MatQ m n) := fun A B =>
  decidable_of_iff (∀ i j, A i j = B i j)
    ⟨fun h => Matrix.ext h, fun h i j => by rw [h]⟩

/-- Squared Frobenius norm `norm(X, 'fro') ** 2 = Σ_i Σ_j X[i,j]²`. -/
def frobSq {m n : ℕ} (X : MatQ m n) : ℚ := ∑ i, ∑ j, (X i j) ^ 2

/-- The float value `norm(D - L - S, 'fro') / norm(D, 'fro')`, represented by
its square (`fltLt` compensates); `nan` when `norm(D) = 0` (there the
numerator of the float division is also `0`, giving `0/0 = nan`). -/
def relResSq {m n : ℕ} (D L S : MatQ m n) : FQ :=
  if frobSq D = 0 then FQ.nan else FQ.val (frobSq (D - L - S) / frobSq D)

/-- `hard_threshold(x, threshold)`: the source computes
`x * (np.abs(x) >= threshold)`, i.e. multiplies elementwise by the 0/1
indicator of `|x| ≥ t`. -/
def hard_threshold {m n : ℕ} (X : MatQ m n) (t : ℚ) : MatQ m n :=
  Matrix.of fun i j => X i j * (if t ≤ |X i j| then 1 else 0)

/-- `soft_threshold(x, threshold)`: the source computes
`np.sign(x) * np.maximum(np.abs(x) - threshold, 0)`. -/
def soft_threshold {m n : ℕ} (X : MatQ m n) (t : ℚ) : MatQ m n :=
  Matrix.of fun i j =>
    (if 0 < X i j then (1 : ℚ) else if X i j < 0 then -1 else 0) *
      max (|X i j| - t) 0

/-! ### The incoherence trimmer `trim(U, Sig, V, mu_U, mu_V)`

Source (cell 2 of the notebook):
```
m, r = U.shape
row_norm_square_U = np.sum(U**2, axis=1)
big_rows_U = row_norm_square_U > (mu_U * r / m)
U[big_rows_U, :] = (U[big_rows_U, :].T
    * ((mu_U * r / m) / np.sqrt(row_norm_square_U[big_rows_U]))).T
n, r = V.shape
row_norm_square_V = np.sum(V**2, axis=1)
big_rows_V = row_norm_square_V > (mu_V * r / n)
V[big_rows_V, :] = (V[big_rows_V, :].T
    * ((mu_V * r / n) / np.sqrt(row_norm_square_V[big_rows_V]))).T
Q1, R1 = qr(U, mode='economic')
Q2, R2 = qr(V, mode='economic')
U_temp, Sig_out, V_temp = svd(R1 @ Sig @ R2.T, full_matrices=False)
U_out = Q1 @ U_temp
V_out = Q2 @ V_temp
return U_out, V_out
```
The two fancy-index assignments mutate the argument arrays in place; the
caller-visible contents of the arguments after the call are `trimArgsAfter`.
`qr`, `svd` and `np.sqrt` are external library calls, passed in through an
`AAPOracle` (the same record also carries the engine's `svds`/`svd` calls).
Note `svd` returns `(U, s, Vh)`; the code multiplies `Q2` by the third
component (`Vh`) directly, and this is embedded as written. -/

/-- Squared row norms `np.sum(U**2, axis=1)` of the factor matrix. -/
def rowNormSq {m r : ℕ} (U : MatQ m r) (i : Fin m) : ℚ := ∑ j, (U i j) ^ 2

/-- The row-rescaling step of `trim`: rows whose squared norm exceeds `bound`
are multiplied elementwise by `bound / sqrt(row_norm_square)`; `sq` is the
external `np.sqrt`. -/
def rescaleRows {m r : ℕ} (bound : ℚ) (sq : ℚ → ℚ) (U : MatQ m r) :
    MatQ m r :=
  Matrix.of fun i j =>
    if bound < rowNormSq U i then (bound / sq (rowNormSq U i)) * U i j
    else U i j

/-- The external linear-algebra library collaborator (spec section 6): the
`scipy` routines the notebook calls, as total functions.  `svds1` is
`svds(D, 1)[1][0]` (top singular value), `svdsr` is `svds(A, r)` returning
`(U, Sigma, Vt)` (per the scipy contract, `Sigma` is in ASCENDING order),
`qr_m`/`qr_n` are `qr(·, mode='economic')` on `m×r` / `n×r` inputs, `svdr`
and `svd2r` are `scipy.linalg.svd(·, full_matrices=False)` on `r×r` and
`2r×2r` inputs returning `(U, s, Vh)` with `s` DESCENDING, and `sqrtO` is
`np.sqrt`.  The `2r` index type is `Fin r ⊕ Fin r` with `Sum.inl` the first
`r` flat indices. -/
structure AAPOracle (m n r : ℕ) where
  svds1 : MatQ m n → ℚ
  svdsr : MatQ m n → MatQ m r × (Fin r → ℚ) × MatQ r n
  qr_m : MatQ m r → MatQ m r × MatQ r r
  qr_n : MatQ n r → MatQ n r × MatQ r r
  svdr : MatQ r r → MatQ r r × (Fin r → ℚ) × MatQ r r
  svd2r : Matrix (Fin r ⊕ Fin r) (Fin r ⊕ Fin r) ℚ →
    Matrix (Fin r ⊕ Fin r) (Fin r ⊕ Fin r) ℚ × ((Fin r ⊕ Fin r) → ℚ) ×
      Matrix (Fin r ⊕ Fin r) (Fin r ⊕ Fin r) ℚ
  sqrtO : ℚ → ℚ

/-- The contents of the caller's `U` array after `trim`'s in-place row
assignment (`U[big_rows_U, :] = ...` with bound `mu_U * r / m`). -/
def trimU1 {m r : ℕ} (sq : ℚ → ℚ) (U : MatQ m r) (μU : ℚ) : MatQ m r :=
  rescaleRows (μU * (r : ℚ) / (m : ℚ)) sq U

/-- The contents of the caller's `V` array after `trim`'s in-place row
assignment (bound `mu_V * r / n`). -/
def trimV1 {n r : ℕ} (sq : ℚ → ℚ) (V : MatQ n r) (μV : ℚ) : MatQ n r :=
  rescaleRows (μV * (r : ℚ) / (n : ℚ)) sq V

/-- Caller-visible contents of both argument arrays after `trim` returns:
models the frame effect of the two fancy-index assignments (the QR/SVD part
of `trim` allocates fresh arrays and does not write to the arguments). -/
def trimArgsAfter {m n r : ℕ} (sq : ℚ → ℚ) (U : MatQ m r) (V : MatQ n r)
    (μU μV : ℚ) : MatQ m r × MatQ n r :=
  (trimU1 sq U μU, trimV1 sq V μV)

/-- `Q1` of `qr(U, mode='economic')` on the rescaled `U`. -/
def trimQ1 {m n r : ℕ} (O : AAPOracle m n r) (U : MatQ m r) (μU : ℚ) :
    MatQ m r :=
  (O.qr_m (trimU1 O.sqrtO U μU)).1

/-- `R1` of `qr(U, mode='economic')` on the rescaled `U`. -/
def trimR1 {m n r : ℕ} (O : AAPOracle m n r) (U : MatQ m r) (μU : ℚ) :
    MatQ r r :=
  (O.qr_m (trimU1 O.sqrtO U μU)).2

/-- `Q2` of `qr(V, mode='economic')` on the rescaled `V`. -/
def trimQ2 {m n r : ℕ} (O : AAPOracle m n r) (V : MatQ n r) (μV : ℚ) :
    MatQ n r :=
  (O.qr_n (trimV1 O.sqrtO V μV)).1

/-- `R2` of `qr(V, mode='economic')` on the rescaled `V`. -/
def trimR2 {m n r : ℕ} (O : AAPOracle m n r) (V : MatQ n r) (μV : ℚ) :
    MatQ r r :=
  (O.qr_n (trimV1 O.sqrtO V μV)).2

/-- `U_temp` of `svd(R1 @ Sig @ R2.T, full_matrices=False)` inside `trim`. -/
def trimUsmall {m n r : ℕ} (O : AAPOracle m n r) (U : MatQ m r)
    (Sig : MatQ r r) (V : MatQ n r) (μU μV : ℚ) : MatQ r r :=
  (O.svdr (trimR1 O U μU * Sig * (trimR2 O V μV).transpose)).1

/-- `Sig_out` of `svd(R1 @ Sig @ R2.T, full_matrices=False)` inside `trim`:
the refreshed singular values, computed but never returned by `trim`. -/
def trimSigOut {m n r : ℕ} (O : AAPOracle m n r) (U : MatQ m r)
    (Sig : MatQ r r) (V : MatQ n r) (μU μV : ℚ) : Fin r → ℚ :=
  (O.svdr (trimR1 O U μU * Sig * (trimR2 O V μV).transpose)).2.1

/-- `V_temp` of `svd(R1 @ Sig @ R2.T, full_matrices=False)` inside `trim`
(scipy's third return value, i.e. `Vh`). -/
def trimVh {m n r : ℕ} (O : AAPOracle m n r) (U : MatQ m r) (Sig : MatQ r r)
    (V : MatQ n r) (μU μV : ℚ) : MatQ r r :=
  (O.svdr (trimR1 O U μU * Sig * (trimR2 O V μV).transpose)).2.2

/-- `trim(U, Sig, V, mu_U, mu_V)`: rescale over-concentrated rows, re-QR,
take the small SVD, and return `(Q1 @ U_temp, Q2 @ V_temp)` — only the two
factor matrices are returned. -/
def trim {m n r : ℕ} (O : AAPOracle m n r) (U : MatQ m r) (Sig : MatQ r r)
    (V : MatQ n r) (μU μV : ℚ) : MatQ m r × MatQ n r :=
  (trimQ1 O U μU * trimUsmall O U Sig V μU μV,
   trimQ2 O V μV * trimVh O U Sig V μU μV)

/-! ### Concrete matrices and exact oracle instances for evaluations -/

/-- The 2×1 factor `[[3/5], [4/5]]` with one orthonormal column, used for the
trim counterexamples (all arising square roots are exact rationals). -/
def Uc : MatQ 2 1 := Matrix.of fun i _ => if i = 0 then (3 : ℚ)/5 else 4/5

/-- The 1×1 singular-value factor `[[1]]`. -/
def Sig1 : MatQ 1 1 := Matrix.of fun _ _ => (1 : ℚ)

/-- The 1×1 singular-value factor `[[2]]`. -/
def Sig2 : MatQ 1 1 := Matrix.of fun _ _ => (2 : ℚ)

/-- First standard basis column of length 2. -/
def e1col2 : MatQ 2 1 := Matrix.of fun i _ => if i = 0 then (1 : ℚ) else 0

/-- Exact economy QR of a 2×1 column with rational norm: `Q = x / ‖x‖`,
`R = [[‖x‖]]` (the LAPACK sign choice does not affect any property proved
here, since only row norms and `QᵀQ` are consumed); on the zero column it
returns the valid factorization `Q = e1`, `R = 0`. -/
def qrCol2 (x : MatQ 2 1) : MatQ 2 1 × MatQ 1 1 :=
  if frobSq x = 0 then (e1col2, 0)
  else
    (Matrix.of fun i _ => x i 0 / ratSqrt (frobSq x),
     Matrix.of fun _ _ => ratSqrt (frobSq x))

/-- Exact SVD of a 1×1 matrix: `[[a]] = [[1]] · [|a|] · [[sign a]]`. -/
def svd1x1 (A : MatQ 1 1) : MatQ 1 1 × (Fin 1 → ℚ) × MatQ 1 1 :=
  if 0 ≤ A 0 0 then (1, fun _ => A 0 0, 1)
  else (1, fun _ => -(A 0 0), -1)

/-- Exact economy QR of a 1×1 matrix: `[[a]] = [[sign a]] · [[|a|]]`. -/
def qr1x1 (A : MatQ 1 1) : MatQ 1 1 × MatQ 1 1 :=
  if 0 ≤ A 0 0 then (1, A) else (-1, -A)

/-- Top singular value of a 2×2 diagonal matrix (`svds(A, 1)[1][0]`); exact
for the diagonal matrices our concrete runs pass to it. -/
def svdsTop2 (A : MatQ 2 2) : ℚ := max (|A 0 0|) (|A 1 1|)

/-- Exact rank-1 truncated SVD (`svds(A, 1)`) of a 2×2 diagonal matrix with
non-negative entries: picks the dominant diagonal entry and its basis
vectors. -/
def svds1of2 (A : MatQ 2 2) : MatQ 2 1 × (Fin 1 → ℚ) × MatQ 1 2 :=
  if |A 1 1| ≤ |A 0 0| then
    (Matrix.of fun i _ => if i = 0 then 1 else 0, fun _ => |A 0 0|,
     Matrix.of fun _ j => if j = 0 then 1 else 0)
  else
    (Matrix.of fun i _ => if i = 1 then 1 else 0, fun _ => |A 1 1|,
     Matrix.of fun _ j => if j = 1 then 1 else 0)

/-- Exact full SVD of a 2×2 (block-indexed) diagonal matrix whose diagonal is
already descending and non-negative — the only inputs the concrete engine
runs produce: `(I, diag, I)`. -/
def svdBlockDiag2 (M : Matrix (Fin 1 ⊕ Fin 1) (Fin 1 ⊕ Fin 1) ℚ) :
    Matrix (Fin 1 ⊕ Fin 1) (Fin 1 ⊕ Fin 1) ℚ × ((Fin 1 ⊕ Fin 1) → ℚ) ×
      Matrix (Fin 1 ⊕ Fin 1) (Fin 1 ⊕ Fin 1) ℚ :=
  (1,
   fun j => Sum.elim (fun _ => M (Sum.inl 0) (Sum.inl 0))
     (fun _ => M (Sum.inr 0) (Sum.inr 0)) j,
   1)

/-- Oracle instance for `m = n = 2`, `r = 1`, exact on every input the
concrete runs below pass to it (2×2 diagonal matrices with rational-norm
columns). -/
def diagOracle : AAPOracle 2 2 1 where
  svds1 := svdsTop2
  svdsr := svds1of2
  qr_m := qrCol2
  qr_n := qrCol2
  svdr := svd1x1
  svd2r := svdBlockDiag2
  sqrtO := ratSqrt

/-- Oracle instance for `m = n = r = 1` (used for the `trim` Σ_out
counterexample); exact on 1×1 matrices. -/
def oneOracle : AAPOracle 1 1 1 where
  svds1 := fun A => |A 0 0|
  svdsr := svd1x1
  qr_m := qr1x1
  qr_n := qr1x1
  svdr := svd1x1
  svd2r := svdBlockDiag2
  sqrtO := ratSqrt

/-! ### The engine `AccAltProj(D, r, params)`

Source (cell 3 of the notebook), after reading the parameters:
```
ζ = β_init * svds(D, 1)[1][0]
S = hard_threshold(D, ζ)
U, Sigma, Vt = svds(D - S, r)
V = Vt.T
L = U @ np.diag(Sigma) @ Vt
ζ = β * Sigma[0]
S = hard_threshold(D - L, ζ)
out = np.empty(niter)
out[0] = norm(D - L - S,'fro')/norm(D,'fro')
for i in range(niter):
    if trimming:
        U, V = trim(U, np.diag(Sigma[:r]), V, µ[0], µ[-1])
    Z = D - S
    Q1, R1 = qr((Z.T @ U - V @ (Z @ V).T @ U), mode='economic')
    Q2, R2 = qr((Z @ V - U @ U.T @ Z @ V), mode='economic')
    M = np.block([[U.T @ Z @ V, R1.T], [R2, np.zeros_like(R2)]])
    U_of_M, Sigma, V_of_M = svd(M, full_matrices=False)
    U = np.hstack([U, Q2]) @ U_of_M[:, :r]
    V = np.hstack([V, Q1]) @ V_of_M[:, :r]
    L = U @ np.diag(Sigma[:r]) @ V.T
    ζ = β * (Sigma[r] + (γ**i) * Sigma[0])
    S = hard_threshold(D - L, ζ)
    out[i+1] = norm(D - L - S,'fro')/norm(D,'fro')
    print(f'...')
    if out[i+1] < eps:
        break
return L, S
```
The state stores `Sigma[:r]` (after the initial `svds(D-S, r)` this is all of
`Sigma`; after each in-loop `svd(M)` the code only ever reads `Sigma[:r]` of
the stored value again — in `np.diag(Sigma[:r])` for `trim` and for `L` —
while `Sigma[r]` and `Sigma[0]` are read right after the `svd(M)` call and
are taken from the local full vector here).  The flat index `k < r` of the
`2r`-vector is `Sum.inl k`, and index `r` is `Sum.inr 0`. -/

/-- The algorithm parameters read from the `params` dict at entry
(`params.get(...)`): `niter`, `eps`, `β` (`beta`), `β_init` (`betaInit`),
`γ` (`gamma`), `µ[0]`/`µ[-1]` (`mu0`/`muLast`), `trimming`.  The notebook's
defaults are `niter = 100`, `eps = 1e-5`, `β = 1/(2·cbrt(m·n/4))`,
`β_init = 4·β`, `γ = 0.7`, `µ = [5]` (so `mu0 = muLast = 5`),
`trimming = False`; callers of the embedding supply the record
explicitly. -/
structure AAPParams where
  niter : ℕ
  eps : ℚ
  beta : ℚ
  betaInit : ℚ
  gamma : ℚ
  mu0 : ℚ
  muLast : ℚ
  trimming : Bool

/-- State after the initialization phase (the lines before the loop),
including the threshold `ζ` and the initial residual `out[0]`. -/
structure InitState (m n r : ℕ) where
  U : MatQ m r
  V : MatQ n r
  Sig : Fin r → ℚ
  L : MatQ m n
  S : MatQ m n
  zeta : ℚ
  res0 : FQ

/-- In-loop state: factors, singular values `Sigma[:r]`, current `L` and `S`,
and the trace buffer `out`. -/
structure LoopState (m n r : ℕ) where
  U : MatQ m r
  V : MatQ n r
  Sig : Fin r → ℚ
  L : MatQ m n
  S : MatQ m n
  out : Array FQ

/-- Bounds-checked write into the fixed-size trace buffer: numpy raises
`IndexError` on an out-of-range index. -/
def traceWrite (out : Array FQ) (i : ℕ) (v : FQ) : Except String (Array FQ) :=
  if h : i < out.size then Except.ok (out.set ⟨i, h⟩ v)
  else Except.error "IndexError"

/-- The initialization phase of `AccAltProj` (everything before
`out = np.empty(niter)`). -/
def initPhase {m n r : ℕ} [NeZero r] (O : AAPOracle m n r) (D : MatQ m n)
    (p : AAPParams) : InitState m n r :=
  let ζ1 := p.betaInit * O.svds1 D
  let S1 := hard_threshold D ζ1
  let usv := O.svdsr (D - S1)
  let U := usv.1
  let Sig := usv.2.1
  let Vt := usv.2.2
  let V := Vt.transpose
  let L := U * Matrix.diagonal Sig * Vt
  let ζ2 := p.beta * Sig 0
  let S2 := hard_threshold (D - L) ζ2
  { U := U, V := V, Sig := Sig, L := L, S := S2, zeta := ζ2,
    res0 := relResSq D L S2 }

/-- The (conditional) trimming step at the top of the loop body:
`U, V = trim(U, np.diag(Sigma[:r]), V, µ[0], µ[-1])` — only `U` and `V` of
the engine state are replaced. -/
def engineTrimStep {m n r : ℕ} (O : AAPOracle m n r) (p : AAPParams)
    (st : LoopState m n r) : LoopState m n r :=
  if p.trimming then
    let uv := trim O st.U (Matrix.diagonal st.Sig) st.V p.mu0 p.muLast
    { st with U := uv.1, V := uv.2 }
  else st

/-- `np.hstack([A, B])` for two `m×r` blocks, columns indexed by
`Fin r ⊕ Fin r`. -/
def hstack {m r : ℕ} (A B : MatQ m r) : Matrix (Fin m) (Fin r ⊕ Fin r) ℚ :=
  Matrix.of fun i => Sum.elim (A i) (B i)

/-- `A[:, :r]` for a `2r×2r` matrix: the first `r` (i.e. `Sum.inl`)
columns. -/
def leftCols {r : ℕ} (A : Matrix (Fin r ⊕ Fin r) (Fin r ⊕ Fin r) ℚ) :
    Matrix (Fin r ⊕ Fin r) (Fin r) ℚ :=
  Matrix.of fun i j => A i (Sum.inl j)

/-- One iteration of the loop body (everything except the `out[i+1]` write
and the convergence test): trim (if enabled), the two orthogonal-complement
QRs, the `2r×2r` block SVD, the factor/threshold/sparse updates. -/
def iterBody {m n r : ℕ} [NeZero r] (O : AAPOracle m n r) (D : MatQ m n)
    (p : AAPParams) (i : ℕ) (st : LoopState m n r) : LoopState m n r :=
  let st0 := engineTrimStep O p st
  let U := st0.U
  let V := st0.V
  let Z := D - st0.S
  let q1 := O.qr_n (Z.transpose * U - V * (Z * V).transpose * U)
  let Q1 := q1.1
  let R1 := q1.2
  let q2 := O.qr_m (Z * V - U * U.transpose * Z * V)
  let Q2 := q2.1
  let R2 := q2.2
  let M := Matrix.fromBlocks (U.transpose * Z * V) R1.transpose R2 0
  let sv := O.svd2r M
  let UM := sv.1
  let SigF := sv.2.1
  let VM := sv.2.2
  let Unew := hstack U Q2 * leftCols UM
  let Vnew := hstack V Q1 * leftCols VM
  let SigTop : Fin r → ℚ := fun j => SigF (Sum.inl j)
  let L := Unew * Matrix.diagonal SigTop * Vnew.transpose
  let ζ := p.beta * (SigF (Sum.inr 0) + p.gamma ^ i * SigF (Sum.inl 0))
  let S := hard_threshold (D - L) ζ
  { U := Unew, V := Vnew, Sig := SigTop, L := L, S := S, out := st0.out }

/-- The iteration loop `for i in range(niter)` from index `i` with
`fuel = niter - i` iterations left: run the body, write `out[i+1]` (an
out-of-range write raises), and stop if the residual beat the tolerance. -/
def loopGo {m n r : ℕ} [NeZero r] (O : AAPOracle m n r) (D : MatQ m n)
    (p : AAPParams) :
    ℕ → ℕ → LoopState m n r → Except String (LoopState m n r)
  | 0, _, st => Except.ok st
  | fuel + 1, i, st =>
    let st1 := iterBody O D p i st
    let v := relResSq D st1.L st1.S
    (traceWrite st1.out (i + 1) v).bind fun outNew =>
      if fltLt v p.eps then Except.ok { st1 with out := outNew }
      else loopGo O D p fuel (i + 1) { st1 with out := outNew }

/-- A whole `AccAltProj(D, r, params)` call with the internal state exposed:
initialization, allocation of the trace buffer `out = np.empty(niter)`
(uninitialised entries modelled as `nan`), the `out[0]` write, and the loop.
An uncaught `IndexError` is `Except.error "IndexError"`. -/
def AccAltProjRun {m n r : ℕ} [NeZero r] (O : AAPOracle m n r) (D : MatQ m n)
    (p : AAPParams) : Except String (LoopState m n r) :=
  let ist := initPhase O D p
  (traceWrite (Array.mkArray p.niter FQ.nan) 0 ist.res0).bind fun out1 =>
    loopGo O D p p.niter 0
      { U := ist.U, V := ist.V, Sig := ist.Sig, L := ist.L, S := ist.S,
        out := out1 }

/-- What the caller of `AccAltProj` receives: the final statement is
`return L, S`, so the call's value is exactly the pair of the final `L` and
`S` (or the propagated exception). -/
def AccAltProj {m n r : ℕ} [NeZero r] (O : AAPOracle m n r) (D : MatQ m n)
    (p : AAPParams) : Except String (MatQ m n × MatQ m n) :=
  (AccAltProjRun O D p).map fun st => (st.L, st.S)

/-- The trace buffer of a finished run (`none` if the run raised): internal
diagnostic state of the call, used to compare against the returned value. -/
def traceOf {m n r : ℕ} (x : Except String (LoopState m n r)) :
    Option (Array FQ) :=
  x.toOption.map LoopState.out

/-- The notebook's default parameters instantiated for a 2×2 input, where
every default is exact: `β = 1/(2·cbrt(2·2/4)) = 1/2`, `β_init = 4β = 2`,
`eps = 1e-5`, `γ = 0.7`, `µ = [5]`, `niter = 100`, `trimming = False`. -/
def defaultParams22 : AAPParams where
  niter := 100
  eps := 1/100000
  beta := 1/2
  betaInit := 2
  gamma := 7/10
  mu0 := 5
  muLast := 5
  trimming := false

/-- Default parameters with `niter = 2` (everything else as
`defaultParams22`). -/
def pIter2 : AAPParams := { defaultParams22 with niter := 2 }

/-- Default parameters with `niter = 3` (everything else as
`defaultParams22`). -/
def pIter3 : AAPParams := { defaultParams22 with niter := 3 }

/-- The rank-1 observation matrix `[[1,0],[0,0]]` used for converging
concrete runs. -/
def D1mat : MatQ 2 2 := Matrix.of fun i j => if i = 0 ∧ j = 0 then 1 else 0

/-- The diagonal matrix `diag(3, 1, 0)` used for the initialization-threshold
evaluation. -/
def D3mat : MatQ 3 3 :=
  Matrix.diagonal (fun i => if i = 0 then 3 else if i = 1 then 1 else 0)

/-- Top singular value of a 3×3 diagonal matrix (`svds(A, 1)[1][0]`). -/
def svdsTop3 (A : MatQ 3 3) : ℚ := max (max (|A 0 0|) (|A 1 1|)) (|A 2 2|)

/-- Exact rank-2 truncated SVD (`svds(A, 2)`) of a 3×3 diagonal matrix with
descending non-negative diagonal `a ≥ b ≥ c ≥ 0`: the two retained singular
values are `{a, b}` and scipy's `svds` returns them ASCENDING, i.e.
`Sigma = (b, a)` with columns `(e2, e1)`. -/
def svds2of3 (A : MatQ 3 3) : MatQ 3 2 × (Fin 2 → ℚ) × MatQ 2 3 :=
  (Matrix.of fun i j => if (i = 1 ∧ j = 0) ∨ (i = 0 ∧ j = 1) then 1 else 0,
   fun j => if j = 0 then A 1 1 else A 0 0,
   Matrix.of fun j i => if (i = 1 ∧ j = 0) ∨ (i = 0 ∧ j = 1) then 1 else 0)

/-- Oracle instance for `m = n = 3`, `r = 2`; only the two `svds` fields are
exercised (by the initialization phase), the remaining fields are unused
placeholders. -/
def asc3Oracle : AAPOracle 3 3 2 where
  svds1 := svdsTop3
  svdsr := svds2of3
  qr_m := fun A => (A, 1)
  qr_n := fun A => (A, 1)
  svdr := fun _ => (1, fun _ => 0, 1)
  svd2r := fun _ => (1, fun _ => 0, 1)
  sqrtO := ratSqrt

/-- C6 counterexample: calling `hard_threshold` with the negative threshold
`t = -1` on the 1×1 matrix `[[5]]` is not rejected: it returns the result
matrix `[[5]]` unchanged (there is no validation code at all). -/
theorem hard_threshold_neg_not_rejected :
    hard_threshold (Matrix.of fun _ _ => (5 : ℚ) : MatQ 1 1) (-1) =
      (Matrix.of fun _ _ => (5 : ℚ)) := by
  with_unfolding_all decide

/-- C6 amended: the thresholding operators perform no input validation; for
every negative threshold `t < 0`, `hard_threshold(X, t)` simply returns `X`
unchanged (every entry satisfies `|x| ≥ 0 > t`). -/
theorem hard_threshold_neg_id {m n : ℕ} (X : MatQ m n) (t : ℚ) (ht : t < 0) :
    hard_threshold X t = X := by
  ext i j
  have h : t ≤ |X i j| := le_trans (le_of_lt ht) (abs_nonneg _)
  simp [hard_threshold, h]

/-- C6 witness: `hard_threshold_neg_id` applied at `X = [[5]]`, `t = -1`. -/
theorem hard_threshold_neg_id_witness :
    (-1 : ℚ) < 0 ∧
      hard_threshold (Matrix.of fun _ _ => (5 : ℚ) : MatQ 1 1) (-1) =
        (Matrix.of fun _ _ => (5 : ℚ)) :=
  ⟨by norm_num, hard_threshold_neg_id _ _ (by norm_num)⟩

/-- C7 counterexample: at `X = [[0]]` and `t = 0` the entry of
`hard_threshold(X, 0)` is `0`, yet `|X[0,0]| < 0` is false — so "the entry is
0 exactly when the corresponding entry of X has absolute value strictly less
than t" fails (the forward direction of the biconditional is broken on zero
entries). -/
theorem hard_threshold_zero_entry_iff_fails :
    hard_threshold (0 : MatQ 1 1) 0 0 0 = 0 ∧ ¬ (|(0 : MatQ 1 1) 0 0| < 0) := by
  constructor
  · with_unfolding_all decide
  · simp

/-- C7 amended: for all `X` and `t ≥ 0`: `hard_threshold(X, 0) = X`; every
entry of `hard_threshold(X, t)` is either `0` or the corresponding entry of
`X`; entries with `|x| < t` are mapped to `0` and entries with `|x| ≥ t` are
kept (hence a result entry is `0` iff `|x| < t` or `x = 0` itself). -/
theorem hard_threshold_entries {m n : ℕ} (X : MatQ m n) (t : ℚ)
    (_ht : 0 ≤ t) :
    hard_threshold X 0 = X ∧
      ∀ i j,
        (hard_threshold X t i j = 0 ∨ hard_threshold X t i j = X i j) ∧
        (|X i j| < t → hard_threshold X t i j = 0) ∧
        (t ≤ |X i j| → hard_threshold X t i j = X i j) := by
  refine ⟨?_, ?_⟩
  · ext i j
    have h : (0 : ℚ) ≤ |X i j| := abs_nonneg _
    simp [hard_threshold, h]
  · intro i j
    refine ⟨?_, ?_, ?_⟩
    · by_cases h : t ≤ |X i j|
      · right; simp [hard_threshold, h]
      · left; simp [hard_threshold, h]
    · intro h
      have h2 : ¬ t ≤ |X i j| := not_le.mpr h
      simp [hard_threshold, h2]
    · intro h
      simp [hard_threshold, h]

/-- Concrete 1×1 matrix `[[2]]` used by the C7 witness. -/
def matTwo : MatQ 1 1 := Matrix.of fun _ _ => (2 : ℚ)

/-- C7 witness: `hard_threshold_entries` applied at `X = [[2]]`, `t = 1`. -/
theorem hard_threshold_entries_witness :
    (0 : ℚ) ≤ 1 ∧
      (hard_threshold matTwo 0 = matTwo ∧
        ∀ i j,
          (hard_threshold matTwo 1 i j = 0 ∨
            hard_threshold matTwo 1 i j = matTwo i j) ∧
          (|matTwo i j| < 1 → hard_threshold matTwo 1 i j = 0) ∧
          ((1 : ℚ) ≤ |matTwo i j| → hard_threshold matTwo 1 i j = matTwo i j)) :=
  ⟨by norm_num, hard_threshold_entries matTwo 1 (by norm_num)⟩

/-- C3 counterexample: for `U = [[3/5],[4/5]]` and `mu_U = 18/25` (bound
`mu_U·r/m = 9/25`), row 1 has squared norm `16/25 > 9/25`, and the code's
rescaling (`trimU1`, factor `(mu_U·r/m)/sqrt(s_i)`) maps its entry to `9/25`,
whose squared row norm `81/625` is NOT the bound `9/25`; moreover the factor
applied differs from the claimed `sqrt((mu_U·r/m)/s_i)` (which would give
entry `3/5`). -/
theorem rescale_squared_norm_not_bound :
    ((18 : ℚ)/25 * (1 : ℚ) / (2 : ℚ) < rowNormSq Uc 1) ∧
    trimU1 ratSqrt Uc (18/25) 1 0 = 9/25 ∧
    rowNormSq (trimU1 ratSqrt Uc (18/25)) 1 ≠ (18 : ℚ)/25 * (1 : ℚ) / (2 : ℚ) ∧
    trimU1 ratSqrt Uc (18/25) 1 0 ≠
      ratSqrt (((18 : ℚ)/25 * (1 : ℚ) / (2 : ℚ)) / rowNormSq Uc 1) * Uc 1 0 := by
  with_unfolding_all decide

/-- C3 amended: a row whose squared norm `s` exceeds the bound is multiplied
by `bound / sqrt(s)` (not `sqrt(bound/s)`), so immediately after rescaling
its squared norm equals `bound²` (equivalently its euclidean norm equals the
bound), not `bound`. -/
theorem rescale_squared_norm_eq_bound_sq {m r : ℕ} (U : MatQ m r)
    (bound : ℚ) (sq : ℚ → ℚ) (i : Fin m)
    (hb : bound < rowNormSq U i)
    (hsq : sq (rowNormSq U i) ^ 2 = rowNormSq U i)
    (h0 : sq (rowNormSq U i) ≠ 0) :
    rowNormSq (rescaleRows bound sq U) i = bound ^ 2 := by
  have hs : rowNormSq U i ≠ 0 := by
    rw [← hsq]
    exact pow_ne_zero 2 h0
  have happ : ∀ j, rescaleRows bound sq U i j =
      (bound / sq (rowNormSq U i)) * U i j := by
    intro j
    simp [rescaleRows, if_pos hb]
  calc rowNormSq (rescaleRows bound sq U) i
      = ∑ j, ((bound / sq (rowNormSq U i)) * U i j) ^ 2 := by
        simp only [rowNormSq, happ]
    _ = (bound / sq (rowNormSq U i)) ^ 2 * ∑ j, (U i j) ^ 2 := by
        simp only [mul_pow]
        rw [← Finset.mul_sum]
    _ = (bound ^ 2 / rowNormSq U i) * rowNormSq U i := by
        rw [div_pow, hsq]
        rfl
    _ = bound ^ 2 := div_mul_cancel₀ _ hs

/-- C3 amended witness: `rescale_squared_norm_eq_bound_sq` at `U = Uc`,
`bound = 9/25`, `sq = ratSqrt`, `i = 1`: the rescaled squared row norm is
`(9/25)² = 81/625`. -/
theorem rescale_squared_norm_eq_bound_sq_witness :
    ((9 : ℚ)/25 < rowNormSq Uc 1) ∧
    ratSqrt (rowNormSq Uc 1) ^ 2 = rowNormSq Uc 1 ∧
    ratSqrt (rowNormSq Uc 1) ≠ 0 ∧
    rowNormSq (rescaleRows (9/25) ratSqrt Uc) 1 = (9/25 : ℚ) ^ 2 := by
  refine ⟨?_, ?_, ?_, ?_⟩
  · with_unfolding_all decide
  · with_unfolding_all decide
  · with_unfolding_all decide
  · exact rescale_squared_norm_eq_bound_sq Uc (9/25) ratSqrt 1
      (by with_unfolding_all decide) (by with_unfolding_all decide)
      (by with_unfolding_all decide)

/-- C10 counterexample: calling `trim` with the default bounds `mu = 5` on
the valid factor `Uc` (both rows have squared norm at most `5/2`) leaves the
caller's argument arrays exactly equal to their pre-call values — so "after
a call to trim the caller's original U and V objects no longer hold their
pre-call values" is false for these inputs (no row exceeds its bound, the
fancy-index assignment selects no rows). -/
theorem trim_args_unchanged_within_bounds :
    trimArgsAfter ratSqrt Uc Uc 5 5 = (Uc, Uc) := by
  with_unfolding_all decide

/-- C10 amended: `trim` does write the rescaled rows back into its argument
arrays — with `mu_U = mu_V = 18/25` the caller's arrays change — but only
when some row's squared norm exceeds its bound; with the notebook's default
`mu = 5` and the same arguments the arrays still hold their pre-call values,
so mutation is conditional, not unconditional. -/
theorem trim_args_mutation_conditional :
    trimArgsAfter ratSqrt Uc Uc (18/25) (18/25) ≠ (Uc, Uc) ∧
    trimArgsAfter ratSqrt Uc Uc 5 5 = (Uc, Uc) := by
  constructor
  · with_unfolding_all decide
  · with_unfolding_all decide

/-- C8 counterexample: for the valid input `U = V = [[3/5],[4/5]]` (orthonormal
column), `Sig = [[1]]`, `mu_U = mu_V = 9/10` (bound `mu·r/m = 9/20`), the
returned factor `U_out` of `trim` has row 0 with squared norm `16/25`, which
exceeds the bound `9/20` — the QR re-orthonormalization redistributes row
energy, so the output row bound claimed by the spec does not hold. -/
theorem trim_row_bound_violated :
    Uc.transpose * Uc = 1 ∧
    ¬ (rowNormSq ((trim diagOracle Uc Sig1 Uc (9/10) (9/10)).1) 0 ≤
        (9 : ℚ)/10 * (1 : ℚ) / (2 : ℚ)) := by
  constructor
  · with_unfolding_all decide
  · with_unfolding_all decide

/-- C8 amended: the orthonormality half of the invariant holds — whenever the
library QR returns `Q` factors with orthonormal columns and the library SVD
returns orthogonal `U_temp`/`V_temp` factors (which exact arithmetic
guarantees), the two matrices returned by `trim` have orthonormal columns;
the per-row energy bound, however, holds only for the intermediate rescaled
matrices, not for the returned factors. -/
theorem trim_output_orthonormal {m n r : ℕ} (O : AAPOracle m n r)
    (U : MatQ m r) (Sig : MatQ r r) (V : MatQ n r) (μU μV : ℚ)
    (hQ1 : (trimQ1 O U μU).transpose * trimQ1 O U μU = 1)
    (hQ2 : (trimQ2 O V μV).transpose * trimQ2 O V μV = 1)
    (hUs : (trimUsmall O U Sig V μU μV).transpose * trimUsmall O U Sig V μU μV = 1)
    (hVh : (trimVh O U Sig V μU μV).transpose * trimVh O U Sig V μU μV = 1) :
    ((trim O U Sig V μU μV).1).transpose * (trim O U Sig V μU μV).1 = 1 ∧
    ((trim O U Sig V μU μV).2).transpose * (trim O U Sig V μU μV).2 = 1 := by
  constructor
  · show (trimQ1 O U μU * trimUsmall O U Sig V μU μV).transpose *
      (trimQ1 O U μU * trimUsmall O U Sig V μU μV) = 1
    rw [Matrix.transpose_mul, Matrix.mul_assoc,
      ← Matrix.mul_assoc ((trimQ1 O U μU).transpose) (trimQ1 O U μU)
        (trimUsmall O U Sig V μU μV),
      hQ1, Matrix.one_mul, hUs]
  · show (trimQ2 O V μV * trimVh O U Sig V μU μV).transpose *
      (trimQ2 O V μV * trimVh O U Sig V μU μV) = 1
    rw [Matrix.transpose_mul, Matrix.mul_assoc,
      ← Matrix.mul_assoc ((trimQ2 O V μV).transpose) (trimQ2 O V μV)
        (trimVh O U Sig V μU μV),
      hQ2, Matrix.one_mul, hVh]

/-- C8 amended witness: `trim_output_orthonormal` at the concrete input of
the counterexample, with every orthogonality hypothesis checked by
evaluation. -/
theorem trim_output_orthonormal_witness :
    ((trimQ1 diagOracle Uc (9/10)).transpose * trimQ1 diagOracle Uc (9/10) = 1 ∧
     (trimQ2 diagOracle Uc (9/10)).transpose * trimQ2 diagOracle Uc (9/10) = 1 ∧
     (trimUsmall diagOracle Uc Sig1 Uc (9/10) (9/10)).transpose *
       trimUsmall diagOracle Uc Sig1 Uc (9/10) (9/10) = 1 ∧
     (trimVh diagOracle Uc Sig1 Uc (9/10) (9/10)).transpose *
       trimVh diagOracle Uc Sig1 Uc (9/10) (9/10) = 1) ∧
    (((trim diagOracle Uc Sig1 Uc (9/10) (9/10)).1).transpose *
       (trim diagOracle Uc Sig1 Uc (9/10) (9/10)).1 = 1 ∧
     ((trim diagOracle Uc Sig1 Uc (9/10) (9/10)).2).transpose *
       (trim diagOracle Uc Sig1 Uc (9/10) (9/10)).2 = 1) :=
  ⟨⟨by with_unfolding_all decide, by with_unfolding_all decide,
    by with_unfolding_all decide, by with_unfolding_all decide⟩,
   trim_output_orthonormal diagOracle Uc Sig1 Uc (9/10) (9/10)
     (by with_unfolding_all decide) (by with_unfolding_all decide)
     (by with_unfolding_all decide) (by with_unfolding_all decide)⟩

/-- C4 counterexample: two calls to `trim` whose middle factors `Sig` differ
(`[[1]]` versus `[[2]]`) produce IDENTICAL return values, while the refreshed
singular values `Sig_out` computed inside differ — so `Sig_out` is not
delivered to the caller (no function of `trim`'s return value can recover
it). -/
theorem trim_sig_out_not_returned :
    trim oneOracle Sig1 Sig1 Sig1 5 5 = trim oneOracle Sig1 Sig2 Sig1 5 5 ∧
    trimSigOut oneOracle Sig1 Sig1 Sig1 5 5 ≠
      trimSigOut oneOracle Sig1 Sig2 Sig1 5 5 := by
  constructor
  · with_unfolding_all decide
  · with_unfolding_all decide

/-- The loop body never touches the trace buffer (the `out[i+1]` write
happens after it). -/
theorem iterBody_out {m n r : ℕ} [NeZero r] (O : AAPOracle m n r)
    (D : MatQ m n) (p : AAPParams) (i : ℕ) (st : LoopState m n r) :
    (iterBody O D p i st).out = st.out := by
  unfold iterBody engineTrimStep
  split <;> rfl

/-- If the tolerance test fails at every state (for instance because the
residual is `nan`, or because `eps ≤ 0`), the loop never breaks, and the
final iteration's `out[i+1]` write hits index `niter` of the size-`niter`
buffer: `IndexError`. -/
theorem loopGo_oob {m n r : ℕ} [NeZero r] (O : AAPOracle m n r)
    (D : MatQ m n) (p : AAPParams)
    (hres : ∀ L S : MatQ m n, fltLt (relResSq D L S) p.eps = false) :
    ∀ fuel i st, (st : LoopState m n r).out.size = p.niter →
      i + fuel = p.niter → 1 ≤ fuel →
      loopGo O D p fuel i st = Except.error "IndexError" := by
  intro fuel
  induction fuel with
  | zero => intro i st _ _ h; omega
  | succ f ih =>
    intro i st hsz hif _
    have hout : (iterBody O D p i st).out = st.out := iterBody_out O D p i st
    have hv := hres (iterBody O D p i st).L (iterBody O D p i st).S
    simp only [loopGo, hout]
    by_cases hlt : i + 1 < p.niter
    · have hlt2 : i + 1 < st.out.size := by rw [hsz]; exact hlt
      have htw : traceWrite st.out (i + 1)
          (relResSq D (iterBody O D p i st).L (iterBody O D p i st).S) =
          Except.ok (st.out.set ⟨i + 1, hlt2⟩
            (relResSq D (iterBody O D p i st).L (iterBody O D p i st).S)) :=
        dif_pos hlt2
      rw [htw]
      simp only [Except.bind, hv, Bool.false_eq_true, if_false]
      exact ih (i + 1)
        { iterBody O D p i st with
          out := st.out.set ⟨i + 1, hlt2⟩
            (relResSq D (iterBody O D p i st).L (iterBody O D p i st).S) }
        (by simpa using hsz) (by omega) (by omega)
    · have htw : traceWrite st.out (i + 1)
          (relResSq D (iterBody O D p i st).L (iterBody O D p i st).S) =
          Except.error "IndexError" :=
        dif_neg (by rw [hsz]; omega)
      rw [htw]
      rfl

/-- Whole-call version of `loopGo_oob`: with at least one iteration budgeted
and a tolerance test that never succeeds, `AccAltProj` raises `IndexError`
instead of returning. -/
theorem run_error_of_never_converges {m n r : ℕ} [NeZero r]
    (O : AAPOracle m n r) (D : MatQ m n) (p : AAPParams)
    (h1 : 1 ≤ p.niter)
    (hres : ∀ L S : MatQ m n, fltLt (relResSq D L S) p.eps = false) :
    AccAltProjRun O D p = Except.error "IndexError" := by
  have h0 : (0 : ℕ) < (Array.mkArray p.niter FQ.nan).size := by
    rw [Array.size_mkArray]; omega
  have htw : traceWrite (Array.mkArray p.niter FQ.nan) 0
      (initPhase O D p).res0 =
      Except.ok ((Array.mkArray p.niter FQ.nan).set ⟨0, h0⟩
        (initPhase O D p).res0) :=
    dif_pos h0
  simp only [AccAltProjRun, htw, Except.bind]
  exact loopGo_oob O D p hres p.niter 0 _
    (by rw [Array.size_set, Array.size_mkArray]) (by omega) h1

/-- The tolerance test always fails on the zero 2×2 observation matrix: the
residual is `0/0 = nan` there, whatever `L` and `S` are. -/
theorem zero22_never_converges :
    ∀ L S : MatQ 2 2, fltLt (relResSq 0 L S) defaultParams22.eps = false := by
  intro L S
  have h0 : frobSq (0 : MatQ 2 2) = 0 := by
    simp [frobSq, pow_two]
  simp [relResSq, h0, fltLt]

/-- C1: exhausting the iteration budget is NOT an error-free return path:
whenever the tolerance test fails at every iteration (so the loop cannot
break early) and `niter ≥ 1`, the call raises `IndexError` — the final
iteration writes `out[niter]` into the trace buffer `np.empty(niter)` —
rather than returning the best available `(L, S)`. -/
theorem accAltProj_budget_exhaustion_raises {m n r : ℕ} [NeZero r]
    (O : AAPOracle m n r) (D : MatQ m n) (p : AAPParams)
    (h1 : 1 ≤ p.niter)
    (hres : ∀ L S : MatQ m n, fltLt (relResSq D L S) p.eps = false) :
    AccAltProj O D p = Except.error "IndexError" := by
  unfold AccAltProj
  rw [run_error_of_never_converges O D p h1 hres]
  rfl

/-- C1 witness: `accAltProj_budget_exhaustion_raises` at the zero 2×2 matrix
with the notebook's default parameters (`niter = 100`): the residual is `nan`
every iteration, so the budget is exhausted and the call raises. -/
theorem accAltProj_budget_exhaustion_raises_witness :
    (1 ≤ defaultParams22.niter ∧
      ∀ L S : MatQ 2 2, fltLt (relResSq 0 L S) defaultParams22.eps = false) ∧
    AccAltProj diagOracle (0 : MatQ 2 2) defaultParams22 =
      Except.error "IndexError" :=
  ⟨⟨by norm_num [defaultParams22], zero22_never_converges⟩,
   accAltProj_budget_exhaustion_raises diagOracle 0 defaultParams22
     (by norm_num [defaultParams22]) zero22_never_converges⟩

set_option maxRecDepth 100000 in
/-- C9: on the zero matrix `D = 0` (2×2, `r = 1`, default configuration) the
call does NOT terminate immediately with `trace[0]` below the tolerance:
`trace[0] = 0/0` is `nan`, the `nan < eps` test fails at every iteration
(even though `L` and `S` are the claimed zero matrices throughout the
initialization), and the call crashes with `IndexError` after exhausting the
budget. -/
theorem zero_input_nan_trace_and_crash :
    (initPhase diagOracle (0 : MatQ 2 2) defaultParams22).res0 = FQ.nan ∧
    fltLt (initPhase diagOracle (0 : MatQ 2 2) defaultParams22).res0
      defaultParams22.eps = false ∧
    (initPhase diagOracle (0 : MatQ 2 2) defaultParams22).L = 0 ∧
    (initPhase diagOracle (0 : MatQ 2 2) defaultParams22).S = 0 ∧
    AccAltProjRun diagOracle (0 : MatQ 2 2) defaultParams22 =
      Except.error "IndexError" := by
  refine ⟨?_, ?_, ?_, ?_, ?_⟩
  · with_unfolding_all decide
  · with_unfolding_all decide
  · with_unfolding_all decide
  · with_unfolding_all decide
  · exact run_error_of_never_converges diagOracle 0 defaultParams22
      (by norm_num [defaultParams22]) zero22_never_converges

set_option maxRecDepth 100000 in
/-- C2 counterexample: two calls on the same input that differ only in
`niter` (2 versus 3) return EQUAL values — the pair `(L, S)` — even though
their convergence traces differ (the buffers have different lengths), so the
trace is not part of the value delivered to the caller. -/
theorem decompose_trace_not_in_return :
    (AccAltProj diagOracle D1mat pIter2).toOption =
      (AccAltProj diagOracle D1mat pIter3).toOption ∧
    (AccAltProj diagOracle D1mat pIter2).toOption ≠ none ∧
    traceOf (AccAltProjRun diagOracle D1mat pIter2) ≠
      traceOf (AccAltProjRun diagOracle D1mat pIter3) := by
  refine ⟨?_, ?_, ?_⟩
  · with_unfolding_all decide
  · with_unfolding_all decide
  · with_unfolding_all decide

set_option maxRecDepth 100000 in
/-- C2 amended: `AccAltProj` returns only the pair `(L, S)` (`return L, S`);
the convergence trace `out` is internal, and no post-processing of the
returned value can recover it: every candidate extraction function is wrong
on one of two runs which share a return value but not a trace. -/
theorem decompose_returns_only_pair :
    ∀ g : Option (MatQ 2 2 × MatQ 2 2) → Option (Array FQ),
      ∃ p, g ((AccAltProj diagOracle D1mat p).toOption) ≠
        traceOf (AccAltProjRun diagOracle D1mat p) := by
  intro g
  by_cases h : g ((AccAltProj diagOracle D1mat pIter2).toOption) =
      traceOf (AccAltProjRun diagOracle D1mat pIter2)
  · refine ⟨pIter3, ?_⟩
    have he : (AccAltProj diagOracle D1mat pIter3).toOption =
        (AccAltProj diagOracle D1mat pIter2).toOption := by
      with_unfolding_all decide
    rw [he, h]
    with_unfolding_all decide
  · exact ⟨pIter2, h⟩

set_option maxRecDepth 100000 in
/-- C5: the recomputed initial threshold is `β * Sigma[0]` where `Sigma`
comes from `svds(D - S, r)`, and scipy's `svds` returns singular values in
ASCENDING order — so for `D - S = diag(3, 1, 0)` and `r = 2` the retained
singular values are `(1, 3)`, and `ζ = β·1`, `β` times the SMALLEST retained
singular value, not `β·3` (`β` times the largest, as the spec states). -/
theorem init_zeta_is_beta_times_smallest :
    (initPhase asc3Oracle D3mat defaultParams22).Sig 0 = 1 ∧
    (initPhase asc3Oracle D3mat defaultParams22).Sig 1 = 3 ∧
    max ((initPhase asc3Oracle D3mat defaultParams22).Sig 0)
        ((initPhase asc3Oracle D3mat defaultParams22).Sig 1) = 3 ∧
    (initPhase asc3Oracle D3mat defaultParams22).zeta =
      defaultParams22.beta * 1 ∧
    (initPhase asc3Oracle D3mat defaultParams22).zeta ≠
      defaultParams22.beta * 3 := by
  refine ⟨?_, ?_, ?_, ?_, ?_⟩
  · with_unfolding_all decide
  · with_unfolding_all decide
  · with_unfolding_all decide
  · with_unfolding_all decide
  · with_unfolding_all decide

/-- C4 amended: inside the engine the trim step replaces only `U` and `V`;
the singular values `Sigma` of the engine state (along with `L`, `S` and the
trace) are untouched, so the subsequent iteration keeps using the pre-trim
`Sigma`, not `trim`'s internal `Sig_out`. -/
theorem engine_trim_step_keeps_sigma {m n r : ℕ} (O : AAPOracle m n r)
    (p : AAPParams) (st : LoopState m n r) :
    (engineTrimStep O p st).Sig = st.Sig ∧
    (engineTrimStep O p st).L = st.L ∧
    (engineTrimStep O p st).S = st.S ∧
    (engineTrimStep O p st).out = st.out := by
  unfold engineTrimStep
  split <;> exact ⟨rfl, rfl, rfl, rfl⟩
